import Mathlib

/-!
Verification of the state-transition orchestrator in
`crates/bevy_state/src/state/transitions.rs`.

The Rust code is embedded shallowly:

* `StateTransitionEvent` mirrors the Rust struct of the same name.
* `internal_apply_state_transition` is embedded as a pure function from
  the current `State<S>` cell contents and the requested next state to
  the new cell contents together with the list of events sent through
  the `EventWriter` (the Rust function sends at most one).  The deferred
  `Commands` effects (`insert_resource` / `remove_resource`) are folded
  into the returned cell value, and `mem::replace` on the `ResMut` is
  the in-place update of the returned cell.
* `setup_state_transitions_in_world` is embedded over a small model of
  `World` / `Schedules` that records, per schedule label, the chained
  system-set configuration and the number of systems added.
* `run_enter`, `run_exit`, `run_transition` are embedded over a model of
  `World::try_run_schedule`: a world holding the set of registered
  schedule labels and a log of schedules actually run; a missing
  registration yields an `Except.error` which the callers discard with
  `let _ = ...`, exactly as in the source.
* `last_transition` is `reader.read().last().cloned()` over the list of
  pending events, oldest first.
-/

/-- Rust `StateTransitionEvent<S>`: event sent when any state transition
of `S` happens (`transitions.rs` lines 43-49). -/
structure StateTransitionEvent (S : Type) where
  exited : Option S
  entered : Option S
  deriving Repr, DecidableEq

/-- Embedding of `internal_apply_state_transition` (`transitions.rs`
lines 78-123).  Input: the current `State<S>` resource contents
(`current_state`, `none` when the resource is absent) and the requested
`new_state`.  Output: the resulting cell contents and the list of events
sent.  The branch structure mirrors the Rust `match` exactly:
`new_state = Some entered` with an existing resource compares
`*state_resource != entered` and on inequality replaces the value and
sends `{exited: Some(old), entered: Some(entered)}`; with no resource it
inserts and sends `{exited: None, entered: Some(entered)}`;
`new_state = None` removes an existing resource and sends
`{exited: Some(current), entered: None}`, and does nothing otherwise. -/
def internal_apply_state_transition {S : Type} [DecidableEq S]
    (current_state : Option S) (new_state : Option S) :
    Option S × List (StateTransitionEvent S) :=
  match new_state with
  | some entered =>
    match current_state with
    | some state_resource =>
      if state_resource ≠ entered then
        (some entered, [⟨some state_resource, some entered⟩])
      else
        (some state_resource, [])
    | none =>
      (some entered, [⟨none, some entered⟩])
  | none =>
    match current_state with
    | some resource =>
      (none, [⟨some resource, none⟩])
    | none =>
      (none, [])

/-- Embedding of `last_transition` (`transitions.rs` lines 159-163):
`reader.read().last().cloned()` over the pending events of the reader's
channel, oldest first. -/
def last_transition {S : Type} (pending : List (StateTransitionEvent S)) :
    Option (StateTransitionEvent S) :=
  pending.getLast?

/-- Rust `StateTransitionSteps` (`transitions.rs` lines 54-61): the five
system sets of the `StateTransition` schedule, run sequentially in the
order of the enum variants. -/
inductive StateTransitionSteps where
  | RootTransitions
  | DependentTransitions
  | ExitSchedules
  | TransitionSchedules
  | EnterSchedules
  deriving Repr, DecidableEq

/-- Schedule labels as seen by `setup_state_transitions_in_world`: the
distinguished `StateTransition` label (`transitions.rs` line 38) and the
other interned labels (the possible `startup_label` arguments), drawn
from an arbitrary type `L`. -/
inductive SchedLabel (L : Type) where
  | stateTransition
  | interned (l : L)
  deriving Repr, DecidableEq

/-- Model of a `Schedule` as far as setup is concerned: its label, the
system sets configured with `.chain()` (in chained order), and the
number of systems added to it. -/
structure Schedule (L : Type) where
  label : SchedLabel L
  chainedSets : List StateTransitionSteps
  numSystems : Nat
  deriving Repr, DecidableEq

/-- Model of the `Schedules` resource: the schedules of the world, keyed
by label (the Rust `HashMap` is represented as an entry list; `insert`
replaces any entry with the same label, so label-uniqueness is
preserved). -/
structure Schedules (L : Type) where
  entries : List (Schedule L)
  deriving Repr, DecidableEq

/-- `Schedules::default()`: no schedules. -/
def Schedules.defaultSchedules {L : Type} : Schedules L := ⟨[]⟩

/-- `Schedules::contains(label)`. -/
def Schedules.containsLabel {L : Type} [DecidableEq L]
    (s : Schedules L) (lbl : SchedLabel L) : Bool :=
  s.entries.any (fun e => e.label == lbl)

/-- `Schedules::insert(schedule)`: replaces the entry with the same
label, if any (`HashMap::insert` semantics). -/
def Schedules.insertSchedule {L : Type} [DecidableEq L]
    (s : Schedules L) (sched : Schedule L) : Schedules L :=
  ⟨s.entries.filter (fun e => !(e.label == sched.label)) ++ [sched]⟩

/-- Adds one system to an entry when its label matches. -/
def Schedules.bumpEntry {L : Type} [DecidableEq L]
    (lbl : SchedLabel L) (e : Schedule L) : Schedule L :=
  if e.label == lbl then
    { label := e.label, chainedSets := e.chainedSets,
      numSystems := e.numSystems + 1 }
  else e

/-- `Schedules::add_systems(label, system)`: adds one system to the
schedule with this label, creating an empty schedule first when none
exists (`entry(label).or_insert_with` semantics). -/
def Schedules.addSystems {L : Type} [DecidableEq L]
    (s : Schedules L) (lbl : SchedLabel L) : Schedules L :=
  if s.containsLabel lbl then
    ⟨s.entries.map (Schedules.bumpEntry lbl)⟩
  else
    ⟨s.entries ++ [{ label := lbl, chainedSets := [], numSystems := 1 }]⟩

/-- Lookup of the schedule registered under a label. -/
def Schedules.getSched {L : Type} [DecidableEq L]
    (s : Schedules L) (lbl : SchedLabel L) : Option (Schedule L) :=
  s.entries.find? (fun e => e.label == lbl)

/-- Model of the `World` as far as setup is concerned: the `Schedules`
resource, `none` when the resource is absent. -/
structure World (L : Type) where
  schedules : Option (Schedules L)
  deriving Repr, DecidableEq

/-- The chained system-set configuration installed by
`schedule.configure_sets((...).chain())` (`transitions.rs` lines
139-148). -/
def stateTransitionSetOrder : List StateTransitionSteps :=
  [StateTransitionSteps.RootTransitions,
   StateTransitionSteps.DependentTransitions,
   StateTransitionSteps.ExitSchedules,
   StateTransitionSteps.TransitionSchedules,
   StateTransitionSteps.EnterSchedules]

/-- The `Schedule::new(StateTransition)` value after
`configure_sets((...).chain())`: labelled `StateTransition`, the five
sets chained in variant order, no systems yet. -/
def stateTransitionSchedule {L : Type} : Schedule L :=
  { label := SchedLabel.stateTransition,
    chainedSets := stateTransitionSetOrder,
    numSystems := 0 }

/-- Embedding of `setup_state_transitions_in_world` (`transitions.rs`
lines 130-156).  `world.get_resource_or_insert_with(Schedules::default)`
materialises the resource; if it already contains `StateTransition` the
function returns; otherwise it builds `Schedule::new(StateTransition)`,
chains the five `StateTransitionSteps` sets, inserts the schedule, and,
when a startup label is supplied, adds the one-shot runner system to
that schedule. -/
def setup_state_transitions_in_world {L : Type} [DecidableEq L]
    (world : World L) (startup_label : Option (SchedLabel L)) : World L :=
  let schedules := world.schedules.getD Schedules.defaultSchedules
  if schedules.containsLabel SchedLabel.stateTransition then
    { schedules := some schedules }
  else
    let schedule : Schedule L := stateTransitionSchedule
    let schedules := schedules.insertSchedule schedule
    match startup_label with
    | some startup => { schedules := some (schedules.addSystems startup) }
    | none => { schedules := some schedules }

/-- Number of registered schedules carrying a given label. -/
def Schedules.countLabel {L : Type} [DecidableEq L]
    (s : Schedules L) (lbl : SchedLabel L) : Nat :=
  (s.entries.filter (fun e => e.label == lbl)).length

/-- Number of registered `StateTransition` schedules in a world. -/
def World.stateTransitionCount {L : Type} [DecidableEq L]
    (w : World L) : Nat :=
  match w.schedules with
  | none => 0
  | some s => s.countLabel SchedLabel.stateTransition

/-- The schedule labels looked up by the dispatch helpers: `OnEnter`,
`OnExit` and `OnTransition` (`transitions.rs` lines 17, 22, 29-34). -/
inductive DispatchLabel (S : Type) where
  | onEnter (s : S)
  | onExit (s : S)
  | onTransition (exited : S) (entered : S)
  deriving Repr, DecidableEq

/-- Error returned by `World::try_run_schedule` when no schedule is
registered under the requested label. -/
inductive TryRunScheduleError where
  | missing
  deriving Repr, DecidableEq

/-- Model of the `World` as seen by the dispatch helpers: the set of
registered transition-schedule labels, and a log of the schedules run so
far (in run order). -/
structure DispatchWorld (S : Type) where
  registered : List (DispatchLabel S)
  runLog : List (DispatchLabel S)
  deriving Repr, DecidableEq

/-- `World::try_run_schedule(label)`: runs the schedule if one is
registered under `label` (appending it to the run log), otherwise
returns an error and leaves the world untouched. -/
def try_run_schedule {S : Type} [DecidableEq S]
    (w : DispatchWorld S) (lbl : DispatchLabel S) :
    DispatchWorld S × Except TryRunScheduleError Unit :=
  if lbl ∈ w.registered then
    ({ registered := w.registered, runLog := w.runLog ++ [lbl] },
      Except.ok ())
  else
    (w, Except.error TryRunScheduleError.missing)

/-- Embedding of `run_enter` (`transitions.rs` lines 165-177): given the
piped-in `Option<StateTransitionEvent<S>>`, returns early when it is
`None` or its `entered` field is `None`; otherwise runs
`OnEnter(entered)` fallibly, discarding the result (`let _ = ...`). -/
def run_enter {S : Type} [DecidableEq S]
    (transition : Option (StateTransitionEvent S)) (w : DispatchWorld S) :
    DispatchWorld S :=
  match transition with
  | none => w
  | some t =>
    match t.entered with
    | none => w
    | some entered => (try_run_schedule w (DispatchLabel.onEnter entered)).1

/-- Embedding of `run_exit` (`transitions.rs` lines 179-191): returns
early when the input or its `exited` field is `None`; otherwise runs
`OnExit(exited)` fallibly, discarding the result. -/
def run_exit {S : Type} [DecidableEq S]
    (transition : Option (StateTransitionEvent S)) (w : DispatchWorld S) :
    DispatchWorld S :=
  match transition with
  | none => w
  | some t =>
    match t.exited with
    | none => w
    | some exited => (try_run_schedule w (DispatchLabel.onExit exited)).1

/-- Embedding of `run_transition` (`transitions.rs` lines 193-208):
returns early unless the input is `Some` with both fields `Some`;
otherwise runs `OnTransition { exited, entered }` fallibly, discarding
the result. -/
def run_transition {S : Type} [DecidableEq S]
    (transition : Option (StateTransitionEvent S)) (w : DispatchWorld S) :
    DispatchWorld S :=
  match transition with
  | none => w
  | some t =>
    match t.exited with
    | none => w
    | some exited =>
      match t.entered with
      | none => w
      | some entered =>
        (try_run_schedule w (DispatchLabel.onTransition exited entered)).1

lemma bumpEntry_label {L : Type} [DecidableEq L]
    (lbl : SchedLabel L) (e : Schedule L) :
    (Schedules.bumpEntry lbl e).label = e.label := by
  unfold Schedules.bumpEntry
  split <;> rfl

lemma bumpEntry_chainedSets {L : Type} [DecidableEq L]
    (lbl : SchedLabel L) (e : Schedule L) :
    (Schedules.bumpEntry lbl e).chainedSets = e.chainedSets := by
  unfold Schedules.bumpEntry
  split <;> rfl

lemma find?_filter_not_append {α : Type} (p : α → Bool) (c : α)
    (hc : p c = true) (xs : List α) :
    ((xs.filter fun e => !(p e)) ++ [c]).find? p = some c := by
  rw [List.find?_append]
  have h1 : (xs.filter fun e => !(p e)).find? p = none := by
    rw [List.find?_eq_none]
    intro x hx
    have hpx := (List.mem_filter.mp hx).2
    simp only [Bool.not_eq_true'] at hpx
    simp [hpx]
  simp [h1, hc]

lemma getSched_insertSchedule_self {L : Type} [DecidableEq L]
    (s : Schedules L) (sched : Schedule L) :
    (s.insertSchedule sched).getSched sched.label = some sched := by
  unfold Schedules.insertSchedule Schedules.getSched
  exact find?_filter_not_append _ sched (by simp) s.entries

lemma find?_chainedSets_map_bump {L : Type} [DecidableEq L]
    (lbl lbl' : SchedLabel L) (xs : List (Schedule L)) :
    ((xs.map (Schedules.bumpEntry lbl)).find?
        (fun e => e.label == lbl')).map (fun e => e.chainedSets)
      = (xs.find? (fun e => e.label == lbl')).map (fun e => e.chainedSets) := by
  rw [List.find?_map]
  have hp : ((fun e : Schedule L => e.label == lbl') ∘ Schedules.bumpEntry lbl)
      = fun e : Schedule L => e.label == lbl' := by
    funext e
    simp [Function.comp, bumpEntry_label]
  rw [hp, Option.map_map]
  have hcs : ((fun e : Schedule L => e.chainedSets) ∘ Schedules.bumpEntry lbl)
      = fun e : Schedule L => e.chainedSets := by
    funext e
    simp [Function.comp, bumpEntry_chainedSets]
  rw [hcs]

lemma containsLabel_iff_countLabel_pos {L : Type} [DecidableEq L]
    (s : Schedules L) (lbl : SchedLabel L) :
    s.containsLabel lbl = true ↔ 1 ≤ s.countLabel lbl := by
  unfold Schedules.containsLabel Schedules.countLabel
  rw [List.any_eq_true]
  constructor
  · rintro ⟨x, hx, hp⟩
    exact List.length_pos_of_mem (List.mem_filter.mpr ⟨hx, hp⟩)
  · intro h
    obtain ⟨x, hx⟩ := List.exists_mem_of_length_pos h
    exact ⟨x, (List.mem_filter.mp hx).1, (List.mem_filter.mp hx).2⟩

lemma countLabel_insertSchedule_self {L : Type} [DecidableEq L]
    (s : Schedules L) (sched : Schedule L) :
    (s.insertSchedule sched).countLabel sched.label = 1 := by
  unfold Schedules.insertSchedule Schedules.countLabel
  rw [List.filter_append]
  have hnil : (s.entries.filter fun e => !(e.label == sched.label)).filter
      (fun e => e.label == sched.label) = [] := by
    induction s.entries with
    | nil => rfl
    | cons a t ih =>
      by_cases h : a.label = sched.label <;> simp [List.filter_cons, h, ih]
  simp [hnil]

lemma countLabel_addSystems {L : Type} [DecidableEq L]
    (s : Schedules L) (lbl lbl' : SchedLabel L)
    (h : s.containsLabel lbl' = true) :
    (s.addSystems lbl).countLabel lbl' = s.countLabel lbl' := by
  unfold Schedules.addSystems
  by_cases hc : s.containsLabel lbl = true
  · simp only [hc, if_true]
    unfold Schedules.countLabel
    simp only
    rw [List.filter_map]
    have hp : ((fun e : Schedule L => e.label == lbl') ∘ Schedules.bumpEntry lbl)
        = fun e : Schedule L => e.label == lbl' := by
      funext e
      simp [Function.comp, bumpEntry_label]
    rw [hp, List.length_map]
  · have hne : lbl ≠ lbl' := fun he => hc (he ▸ h)
    simp only [hc, if_false, Bool.false_eq_true]
    unfold Schedules.countLabel
    simp [List.filter_append, hne]

lemma containsLabel_addSystems_of_contains {L : Type} [DecidableEq L]
    (s : Schedules L) (lbl lbl' : SchedLabel L)
    (h : s.containsLabel lbl' = true) :
    (s.addSystems lbl).containsLabel lbl' = true := by
  rw [containsLabel_iff_countLabel_pos, countLabel_addSystems s lbl lbl' h]
  exact (containsLabel_iff_countLabel_pos s lbl').mp h

lemma getSched_chainedSets_addSystems {L : Type} [DecidableEq L]
    (s : Schedules L) (lbl lbl' : SchedLabel L)
    (h : s.containsLabel lbl' = true) :
    ((s.addSystems lbl).getSched lbl').map (fun e => e.chainedSets)
      = (s.getSched lbl').map (fun e => e.chainedSets) := by
  unfold Schedules.addSystems
  by_cases hc : s.containsLabel lbl = true
  · simp only [hc, if_true]
    unfold Schedules.getSched
    exact find?_chainedSets_map_bump lbl lbl' s.entries
  · simp only [hc, if_false, Bool.false_eq_true]
    unfold Schedules.getSched
    rw [List.find?_append]
    have hsome : (s.entries.find? fun e => e.label == lbl').isSome := by
      rw [List.find?_isSome]
      unfold Schedules.containsLabel at h
      exact List.any_eq_true.mp h
    obtain ⟨x, hx⟩ := Option.isSome_iff_exists.mp hsome
    simp [hx]

lemma stateTransitionCount_setup {L : Type} [DecidableEq L]
    (w : World L) (l : Option (SchedLabel L))
    (hw : w.stateTransitionCount ≤ 1) :
    (setup_state_transitions_in_world w l).stateTransitionCount = 1 := by
  obtain ⟨sch⟩ := w
  have install : ∀ s : Schedules L,
      s.containsLabel SchedLabel.stateTransition = false →
      (setup_state_transitions_in_world (⟨some s⟩ : World L) l).stateTransitionCount
        = 1 := by
    intro s hs
    unfold setup_state_transitions_in_world
    simp only [Option.getD_some, hs, Bool.false_eq_true, if_false]
    have hins : (s.insertSchedule stateTransitionSchedule).countLabel
        SchedLabel.stateTransition = 1 :=
      countLabel_insertSchedule_self s stateTransitionSchedule
    have hcon : (s.insertSchedule stateTransitionSchedule).containsLabel
        SchedLabel.stateTransition = true := by
      rw [containsLabel_iff_countLabel_pos, hins]
    cases l with
    | none => exact hins
    | some startup =>
      simp only [World.stateTransitionCount]
      rw [countLabel_addSystems _ _ _ hcon]
      exact hins
  cases sch with
  | none =>
    have hnone : (⟨none⟩ : World L) = ⟨none⟩ := rfl
    have : setup_state_transitions_in_world (⟨none⟩ : World L) l
        = setup_state_transitions_in_world
            (⟨some Schedules.defaultSchedules⟩ : World L) l := by
      unfold setup_state_transitions_in_world
      rfl
    rw [this]
    exact install Schedules.defaultSchedules rfl
  | some s =>
    by_cases hc : s.containsLabel SchedLabel.stateTransition = true
    · unfold setup_state_transitions_in_world
      simp only [Option.getD_some, hc, if_true]
      have h1 := (containsLabel_iff_countLabel_pos s
        SchedLabel.stateTransition).mp hc
      have h2 : s.countLabel SchedLabel.stateTransition ≤ 1 := hw
      simp only [World.stateTransitionCount]
      omega
    · exact install s (Bool.not_eq_true _ ▸ by simpa using hc)

/-- C1: applying `internal_apply_state_transition` with a requested
value equal (under the state type's equality) to the current one leaves
the `State<S>` cell unchanged and sends no `StateTransitionEvent`. -/
theorem c1_noop_on_equal_request {S : Type} [DecidableEq S] (v c : S)
    (h : v = c) :
    internal_apply_state_transition (some c) (some v) = (some c, []) := by
  subst h
  simp [internal_apply_state_transition]

theorem c1_noop_on_equal_request_witness :
    (0 : ℕ) = 0 ∧
      internal_apply_state_transition (some (0 : ℕ)) (some 0) = (some 0, []) :=
  ⟨rfl, c1_noop_on_equal_request 0 0 rfl⟩

/-- C2: applying `internal_apply_state_transition` with
`requested = some v` when the current value differs (update) or is
absent (insert) sets the cell to `some v` and sends exactly one event
whose `exited` field is the previous cell contents and whose `entered`
field is `some v`. -/
theorem c2_update_and_insert {S : Type} [DecidableEq S] (v : S) :
    (∀ c : S, v ≠ c →
      internal_apply_state_transition (some c) (some v)
        = (some v, [⟨some c, some v⟩])) ∧
    internal_apply_state_transition (none : Option S) (some v)
      = (some v, [⟨none, some v⟩]) := by
  refine ⟨fun c hne => ?_, ?_⟩
  · simp [internal_apply_state_transition, Ne.symm hne]
  · simp [internal_apply_state_transition]

theorem c2_update_and_insert_witness :
    ((1 : ℕ) ≠ 0 →
      internal_apply_state_transition (some (0 : ℕ)) (some 1)
        = (some 1, [⟨some 0, some 1⟩])) ∧
    internal_apply_state_transition (none : Option ℕ) (some 1)
      = (some 1, [⟨none, some 1⟩]) :=
  ⟨fun h => (c2_update_and_insert 1).1 0 h, (c2_update_and_insert 1).2⟩

/-- C3: applying `internal_apply_state_transition` with
`requested = none` removes the cell and sends
`{exited := some c, entered := none}` when a current value `c` exists;
with no current value it changes nothing and sends no event. -/
theorem c3_remove_and_noop {S : Type} [DecidableEq S] :
    (∀ c : S,
      internal_apply_state_transition (some c) none
        = (none, [⟨some c, none⟩])) ∧
    internal_apply_state_transition (none : Option S) none = (none, []) := by
  exact ⟨fun c => rfl, rfl⟩

/-- C4: every event sent by `internal_apply_state_transition` has at
least one of its `exited` / `entered` fields `some`; an event with both
fields `none` is never sent. -/
theorem c4_no_double_none_event {S : Type} [DecidableEq S]
    (current_state new_state : Option S) (e : StateTransitionEvent S)
    (he : e ∈ (internal_apply_state_transition current_state new_state).2) :
    e.exited.isSome ∨ e.entered.isSome := by
  unfold internal_apply_state_transition at he
  rcases new_state with _ | v <;> rcases current_state with _ | c
  · simp at he
  · simp at he
    subst he
    left
    rfl
  · simp at he
    subst he
    right
    rfl
  · by_cases h : c = v
    · simp [h] at he
    · simp [Ne.symm h, h] at he
      subst he
      right
      rfl

theorem c4_no_double_none_event_witness :
    (⟨none, some 5⟩ : StateTransitionEvent ℕ)
        ∈ (internal_apply_state_transition (none : Option ℕ) (some 5)).2 ∧
    ((⟨none, some 5⟩ : StateTransitionEvent ℕ).exited.isSome ∨
      (⟨none, some 5⟩ : StateTransitionEvent ℕ).entered.isSome) := by
  have hmem :
      (⟨none, some 5⟩ : StateTransitionEvent ℕ)
        ∈ (internal_apply_state_transition (none : Option ℕ) (some 5)).2 := by
    decide
  exact ⟨hmem, c4_no_double_none_event none (some 5) ⟨none, some 5⟩ hmem⟩

/-- C8: `last_transition` returns the last (most recent) pending
event of the reader's channel, and `none` when no events are
pending. -/
theorem c8_last_transition_spec {S : Type} :
    last_transition ([] : List (StateTransitionEvent S)) = none ∧
    ∀ (es : List (StateTransitionEvent S)) (e : StateTransitionEvent S),
      last_transition (es ++ [e]) = some e := by
  exact ⟨rfl, fun es e => List.getLast?_concat es⟩

/-- C9: every event sent by `internal_apply_state_transition` with
both fields `some` has distinct `exited` and `entered` values: the
equal-value case is filtered out before any mutation, so a
self-transition event is never sent. -/
theorem c9_no_self_transition_event {S : Type} [DecidableEq S]
    (current_state new_state : Option S) (e : StateTransitionEvent S)
    (he : e ∈ (internal_apply_state_transition current_state new_state).2)
    (a b : S) (ha : e.exited = some a) (hb : e.entered = some b) :
    a ≠ b := by
  unfold internal_apply_state_transition at he
  rcases new_state with _ | v <;> rcases current_state with _ | c
  · simp at he
  · simp at he
    subst he
    simp at hb
  · simp at he
    subst he
    simp at ha
  · by_cases h : c = v
    · simp [h] at he
    · simp [Ne.symm h, h] at he
      subst he
      simp at ha hb
      subst ha
      subst hb
      exact h

/-- C5: `setup_state_transitions_in_world` is idempotent: when the
`StateTransition` schedule is already registered the call returns
immediately, leaving the world unchanged, and two consecutive calls
with any startup-label arguments leave exactly one registered
`StateTransition` schedule. -/
theorem c5_setup_idempotent {L : Type} [DecidableEq L] (w : World L) :
    (∀ s : Schedules L, w.schedules = some s →
        s.containsLabel SchedLabel.stateTransition = true →
        ∀ l : Option (SchedLabel L),
          setup_state_transitions_in_world w l = w) ∧
    (w.stateTransitionCount ≤ 1 →
      ∀ l1 l2 : Option (SchedLabel L),
        (setup_state_transitions_in_world
          (setup_state_transitions_in_world w l1) l2).stateTransitionCount
          = 1) := by
  constructor
  · rintro s hs hc l
    obtain ⟨sch⟩ := w
    simp only at hs
    subst hs
    unfold setup_state_transitions_in_world
    simp [hc]
  · intro hw l1 l2
    exact stateTransitionCount_setup _ l2
      (stateTransitionCount_setup w l1 hw).le

theorem c5_setup_idempotent_witness :
    ((⟨[⟨SchedLabel.stateTransition, [], 0⟩]⟩ : Schedules Nat).containsLabel
        SchedLabel.stateTransition = true ∧
      setup_state_transitions_in_world
          (⟨some ⟨[⟨SchedLabel.stateTransition, [], 0⟩]⟩⟩ : World Nat) none
        = ⟨some ⟨[⟨SchedLabel.stateTransition, [], 0⟩]⟩⟩) ∧
    ((⟨some ⟨[⟨SchedLabel.stateTransition, [], 0⟩]⟩⟩ :
        World Nat).stateTransitionCount ≤ 1 ∧
      (setup_state_transitions_in_world (setup_state_transitions_in_world
          (⟨some ⟨[⟨SchedLabel.stateTransition, [], 0⟩]⟩⟩ : World Nat) none)
        none).stateTransitionCount = 1) := by
  refine ⟨⟨by decide, ?_⟩, by decide, ?_⟩
  · exact (c5_setup_idempotent _).1 _ rfl (by decide) none
  · exact (c5_setup_idempotent _).2 (by decide) none none

/-- C6: the schedule installed by `setup_state_transitions_in_world`
chains the five `StateTransitionSteps` sets in the strict order
RootTransitions, DependentTransitions, ExitSchedules,
TransitionSchedules, EnterSchedules; in particular the exit stage
precedes the transition stage, which precedes the enter stage. -/
theorem c6_stage_order {L : Type} [DecidableEq L] (w : World L)
    (startup : Option (SchedLabel L))
    (h : (w.schedules.getD Schedules.defaultSchedules).containsLabel
        SchedLabel.stateTransition = false) :
    (((setup_state_transitions_in_world w startup).schedules.getD
        Schedules.defaultSchedules).getSched
          SchedLabel.stateTransition).map (fun e => e.chainedSets)
      = some stateTransitionSetOrder ∧
    stateTransitionSetOrder.indexOf StateTransitionSteps.RootTransitions
        < stateTransitionSetOrder.indexOf
            StateTransitionSteps.DependentTransitions ∧
    stateTransitionSetOrder.indexOf StateTransitionSteps.DependentTransitions
        < stateTransitionSetOrder.indexOf StateTransitionSteps.ExitSchedules ∧
    stateTransitionSetOrder.indexOf StateTransitionSteps.ExitSchedules
        < stateTransitionSetOrder.indexOf
            StateTransitionSteps.TransitionSchedules ∧
    stateTransitionSetOrder.indexOf StateTransitionSteps.TransitionSchedules
        < stateTransitionSetOrder.indexOf
            StateTransitionSteps.EnterSchedules := by
  refine ⟨?_, by decide, by decide, by decide, by decide⟩
  unfold setup_state_transitions_in_world
  simp only [h, Bool.false_eq_true, if_false]
  have hget : ((w.schedules.getD Schedules.defaultSchedules).insertSchedule
        stateTransitionSchedule).getSched SchedLabel.stateTransition
      = some (stateTransitionSchedule : Schedule L) :=
    getSched_insertSchedule_self (w.schedules.getD Schedules.defaultSchedules)
      stateTransitionSchedule
  have hcnt : ((w.schedules.getD Schedules.defaultSchedules).insertSchedule
        stateTransitionSchedule).countLabel SchedLabel.stateTransition = 1 :=
    countLabel_insertSchedule_self (w.schedules.getD Schedules.defaultSchedules)
      stateTransitionSchedule
  have hcon : ((w.schedules.getD Schedules.defaultSchedules).insertSchedule
        stateTransitionSchedule).containsLabel SchedLabel.stateTransition
      = true := by
    rw [containsLabel_iff_countLabel_pos, hcnt]
  cases startup with
  | none =>
    simp only [Option.getD_some]
    rw [hget]
    rfl
  | some l =>
    simp only [Option.getD_some]
    rw [getSched_chainedSets_addSystems _ l SchedLabel.stateTransition hcon,
      hget]
    rfl

theorem c6_stage_order_witness :
    ((((⟨none⟩ : World Nat).schedules.getD
          Schedules.defaultSchedules).containsLabel
        SchedLabel.stateTransition = false) ∧
      (((setup_state_transitions_in_world (⟨none⟩ : World Nat)
            none).schedules.getD Schedules.defaultSchedules).getSched
          SchedLabel.stateTransition).map (fun e => e.chainedSets)
        = some stateTransitionSetOrder) := by
  refine ⟨by decide, ?_⟩
  exact (c6_stage_order (⟨none⟩ : World Nat) none (by decide)).1

/-- C7: the dispatch helpers `run_enter`, `run_exit`, `run_transition`
do nothing on a `none` input or when the relevant event field is
`none`; when the relevant fields are `some` they run the looked-up
schedule if it is registered, and when it is not registered the
fallible run result is discarded and the helper returns normally with
the world unchanged. -/
theorem c7_dispatch_helpers {S : Type} [DecidableEq S] (w : DispatchWorld S) :
    (run_enter (none : Option (StateTransitionEvent S)) w = w ∧
      run_exit (none : Option (StateTransitionEvent S)) w = w ∧
      run_transition (none : Option (StateTransitionEvent S)) w = w) ∧
    (∀ t : StateTransitionEvent S, t.entered = none →
      run_enter (some t) w = w) ∧
    (∀ t : StateTransitionEvent S, t.exited = none →
      run_exit (some t) w = w) ∧
    (∀ t : StateTransitionEvent S, t.exited = none ∨ t.entered = none →
      run_transition (some t) w = w) ∧
    (∀ (x : Option S) (e : S), DispatchLabel.onEnter e ∈ w.registered →
      run_enter (some ⟨x, some e⟩) w
        = { registered := w.registered,
            runLog := w.runLog ++ [DispatchLabel.onEnter e] }) ∧
    (∀ (x : Option S) (e : S), DispatchLabel.onEnter e ∉ w.registered →
      run_enter (some ⟨x, some e⟩) w = w) ∧
    (∀ (a : S) (y : Option S), DispatchLabel.onExit a ∈ w.registered →
      run_exit (some ⟨some a, y⟩) w
        = { registered := w.registered,
            runLog := w.runLog ++ [DispatchLabel.onExit a] }) ∧
    (∀ (a : S) (y : Option S), DispatchLabel.onExit a ∉ w.registered →
      run_exit (some ⟨some a, y⟩) w = w) ∧
    (∀ a b : S, DispatchLabel.onTransition a b ∈ w.registered →
      run_transition (some ⟨some a, some b⟩) w
        = { registered := w.registered,
            runLog := w.runLog ++ [DispatchLabel.onTransition a b] }) ∧
    (∀ a b : S, DispatchLabel.onTransition a b ∉ w.registered →
      run_transition (some ⟨some a, some b⟩) w = w) := by
  refine ⟨⟨rfl, rfl, rfl⟩, ?_, ?_, ?_, ?_, ?_, ?_, ?_, ?_, ?_⟩
  · rintro ⟨ex, en⟩ hen
    simp only at hen
    subst hen
    rfl
  · rintro ⟨ex, en⟩ hex
    simp only at hex
    subst hex
    rfl
  · rintro ⟨ex, en⟩ (hex | hen)
    · simp only at hex
      subst hex
      rfl
    · simp only at hen
      subst hen
      cases ex <;> rfl
  · intro x e he
    simp [run_enter, try_run_schedule, he]
  · intro x e he
    simp [run_enter, try_run_schedule, he]
  · intro a y ha
    simp [run_exit, try_run_schedule, ha]
  · intro a y ha
    simp [run_exit, try_run_schedule, ha]
  · intro a b hab
    simp [run_transition, try_run_schedule, hab]
  · intro a b hab
    simp [run_transition, try_run_schedule, hab]

theorem c7_dispatch_helpers_witness :
    (DispatchLabel.onEnter 7
        ∈ (⟨[DispatchLabel.onEnter 7], []⟩ : DispatchWorld ℕ).registered ∧
      run_enter (some ⟨none, some 7⟩)
          (⟨[DispatchLabel.onEnter 7], []⟩ : DispatchWorld ℕ)
        = ⟨[DispatchLabel.onEnter 7], [DispatchLabel.onEnter 7]⟩) ∧
    (DispatchLabel.onExit 3
        ∉ (⟨[DispatchLabel.onEnter 7], []⟩ : DispatchWorld ℕ).registered ∧
      run_exit (some ⟨some 3, none⟩)
          (⟨[DispatchLabel.onEnter 7], []⟩ : DispatchWorld ℕ)
        = ⟨[DispatchLabel.onEnter 7], []⟩) ∧
    run_transition (none : Option (StateTransitionEvent ℕ))
        (⟨[DispatchLabel.onEnter 7], []⟩ : DispatchWorld ℕ)
      = ⟨[DispatchLabel.onEnter 7], []⟩ := by
  obtain ⟨h0, h1, h2, h3, h4, h5, h6, h7, h8, h9⟩ :=
    c7_dispatch_helpers (⟨[DispatchLabel.onEnter 7], []⟩ : DispatchWorld ℕ)
  refine ⟨⟨by decide, ?_⟩, ⟨by decide, ?_⟩, h0.2.2⟩
  · simpa using h4 none 7 (by decide)
  · simpa using h7 3 none (by decide)

/-- C10: on a world with no `Schedules` resource at all,
`setup_state_transitions_in_world` creates the default resource and
installs the `StateTransition` schedule: the resulting world has the
resource, it contains the `StateTransition` schedule, and exactly one
such schedule is registered. -/
theorem c10_setup_on_fresh_world {L : Type} [DecidableEq L]
    (startup : Option (SchedLabel L)) :
    (setup_state_transitions_in_world (⟨none⟩ : World L) startup).schedules
        ≠ none ∧
    ((setup_state_transitions_in_world (⟨none⟩ : World L)
        startup).schedules.getD Schedules.defaultSchedules).containsLabel
      SchedLabel.stateTransition = true ∧
    (setup_state_transitions_in_world (⟨none⟩ : World L)
      startup).stateTransitionCount = 1 := by
  have hcount := stateTransitionCount_setup (⟨none⟩ : World L) startup
    (by simp [World.stateTransitionCount])
  cases hsch : (setup_state_transitions_in_world (⟨none⟩ : World L)
      startup).schedules with
  | none => simp [World.stateTransitionCount, hsch] at hcount
  | some s =>
    have hcs : s.countLabel SchedLabel.stateTransition = 1 := by
      simpa [World.stateTransitionCount, hsch] using hcount
    refine ⟨by simp [hsch], ?_, hcount⟩
    simp only [hsch, Option.getD_some]
    exact (containsLabel_iff_countLabel_pos s _).mpr (by omega)

theorem c9_no_self_transition_event_witness :
    (⟨some 0, some 1⟩ : StateTransitionEvent ℕ)
        ∈ (internal_apply_state_transition (some (0 : ℕ)) (some 1)).2 ∧
    (0 : ℕ) ≠ 1 := by
  have hmem :
      (⟨some 0, some 1⟩ : StateTransitionEvent ℕ)
        ∈ (internal_apply_state_transition (some (0 : ℕ)) (some 1)).2 := by
    decide
  exact ⟨hmem,
    c9_no_self_transition_event (some 0) (some 1) ⟨some 0, some 1⟩ hmem 0 1
      rfl rfl⟩
